import Mathlib

/-
Verification model of the item module of RebirthItemTracker
(src/game_objects/item.py): the Item entity, its flag-string
serialization, metadata lookup through the two static tables
(built-in items and custom/modded items), ItemInfo attribute access,
reroll, identity, description generation and reconstruction of an
Item from a persisted record.

Python strings are Lean Strings; Python dicts are association lists;
a raised exception is an Except.error carrying the exception kind.
-/

namespace ItemTracker

/-- A metadata value as found in the item-metadata JSON tables: the stat
fields hold strings, the marker fields (such as "space") hold booleans. -/
inductive Value where
  | str : String → Value
  | bool : Bool → Value
  deriving DecidableEq

/-- Python truthiness of an attribute-access result: an absent value (None)
is falsy, a string is truthy iff non-empty, a boolean is itself. -/
def truthy : Option Value → Bool
  | Option.none => false
  | Option.some (Value.str s) => !(s.isEmpty)
  | Option.some (Value.bool b) => b

/-- The string content of a metadata value; the stat fields that
`generate_item_description` concatenates are strings in the tables. -/
def strVal : Option Value → String
  | Option.some (Value.str s) => s
  | _ => ""

/-- A raw metadata record: one entry of items.json / items_custom.json,
a mapping from field name to value (keys unique, as in a Python dict). -/
abbrev RawMetadata := List (String × Value)

/-- `ItemInfo(dict)`: a wrapper over a raw metadata record. -/
structure ItemInfo where
  raw : RawMetadata
  deriving DecidableEq

/-- Attribute access on an `ItemInfo`: a field present in the backing record
yields its stored value, any other name falls through `__getattr__` and
yields `None` (modelled as `Option.none`); it never raises. -/
def ItemInfo.get (info : ItemInfo) (name : String) : Option Value :=
  match info.raw.find? (fun p => p.1 == name) with
  | Option.some p => Option.some p.2
  | Option.none => Option.none

/-- One of the two static metadata tables (`Item.items_info` /
`Item.custom_items_info`): a dict from item id to raw metadata record. -/
abbrev Table := List (String × RawMetadata)

/-- Python `table[key]` without the raise: the stored record, if any. -/
def tableGet (t : Table) (key : String) : Option RawMetadata :=
  match t.find? (fun p => p.1 == key) with
  | Option.some p => Option.some p.2
  | Option.none => Option.none

/-- Python `key in table`. -/
def tableContains (t : Table) (key : String) : Bool :=
  (tableGet t key).isSome

/-- The Python exceptions the item module can raise: `IndexError` from
indexing `item_id[0]` on an empty id, `KeyError` from a failed dict
lookup in one of the metadata tables. -/
inductive PyErr where
  | indexError : PyErr
  | keyError : PyErr
  deriving DecidableEq

/-- A floor, as far as Item is concerned: exposes its `floor_id`. -/
structure Floor where
  floor_id : String
  deriving DecidableEq

/-- The Item entity: identity key, owning floor, the three run-state flags
and the metadata record resolved at construction. -/
structure Item where
  item_id : String
  floor : Floor
  starting_item : Bool
  blind : Bool
  was_rerolled : Bool
  info : ItemInfo
  deriving DecidableEq

/-- `Item.floor_id` property. -/
def Item.floor_id (it : Item) : String := it.floor.floor_id

/-- `Item.serialization_flags`: flag attribute name to its single
serialization character, in the order the source dict literal lists
them (the dict iteration order itself is implementation-defined). -/
def serialization_flags : List (String × Char) :=
  [("blind", 'b'), ("was_rerolled", 'r'), ("starting_item", 's')]

/-- `getattr(item, varname)` restricted to the three flag attributes. -/
def getFlag (it : Item) (varname : String) : Bool :=
  if varname = ("blind") then it.blind
  else if varname = ("was_rerolled") then it.was_rerolled
  else if varname = ("starting_item") then it.starting_item
  else false

/-- `setattr(item, varname, b)` restricted to the three flag attributes. -/
def setFlag (it : Item) (varname : String) (b : Bool) : Item :=
  if varname = ("blind") then { it with blind := b }
  else if varname = ("was_rerolled") then { it with was_rerolled := b }
  else if varname = ("starting_item") then { it with starting_item := b }
  else it

/-- The body of the `Item.flags` property, parametrised by the iteration
order of the `serialization_flags` dict: emit the character of every flag
attribute that is true, in iteration order, starting from "". -/
def flagsWith (order : List (String × Char)) (it : Item) : String :=
  order.foldl (fun flagstr p => if getFlag it p.1 then flagstr.push p.2 else flagstr) ("")

/-- The `Item.flags` property (encoding), with the source dict order. -/
def Item.flags (it : Item) : String := flagsWith serialization_flags it

/-- The flagstr branch of `Item.__init__` (decoding): for every
(attribute, character) pair of `serialization_flags`, set the attribute
to whether the character occurs in the flag string. -/
def decodeFlags (pairs : List (String × Char)) (flagstr : String) (it : Item) : Item :=
  pairs.foldl (fun it p => setFlag it p.1 (flagstr.data.contains p.2)) it

/-- `Item.get_item_info`: route on the first character of the id —
a modded id (prefix 'm') is looked up in the custom table under the id
without its prefix, anything else in the builtins table under the id
itself. An empty id raises IndexError at `item_id[0]`; a failed table
lookup raises KeyError. -/
def get_item_info (builtins custom : Table) (item_id : String) : Except PyErr ItemInfo :=
  match item_id.data with
  | [] => Except.error PyErr.indexError
  | c0 :: rest =>
    if c0 = 'm' then
      match tableGet custom (String.mk rest) with
      | Option.some raw => Except.ok (ItemInfo.mk raw)
      | Option.none => Except.error PyErr.keyError
    else
      match tableGet builtins item_id with
      | Option.some raw => Except.ok (ItemInfo.mk raw)
      | Option.none => Except.error PyErr.keyError

/-- `Item.contains_info`: the same routing as `get_item_info`, returning
presence instead of raising KeyError; an empty id still raises
IndexError at `item_id[0]`. -/
def contains_info (builtins custom : Table) (item_id : String) : Except PyErr Bool :=
  match item_id.data with
  | [] => Except.error PyErr.indexError
  | c0 :: rest =>
    if c0 = 'm' then Except.ok (tableContains custom (String.mk rest))
    else Except.ok (tableContains builtins item_id)

/-- `Item.__init__`: store id and floor; if a flag string is given, decode
the three flags from it (the explicit boolean arguments are then
overwritten), else take the explicit arguments; resolve `info` through
`get_item_info`, whose exceptions propagate out of the constructor. -/
def Item.init (builtins custom : Table) (item_id : String) (floor : Floor)
    (starting_item was_rerolled blind : Bool) (flagstr : Option String) :
    Except PyErr Item :=
  match get_item_info builtins custom item_id with
  | Except.error e => Except.error e
  | Except.ok info =>
    let base : Item :=
      { item_id := item_id, floor := floor, starting_item := starting_item,
        blind := blind, was_rerolled := was_rerolled, info := info }
    match flagstr with
    | Option.some fs => Except.ok (decodeFlags serialization_flags fs base)
    | Option.none => Except.ok base

/-- `Item.rerolled`: mark the item rerolled unless its metadata flags it
as a spacebar item. -/
def Item.rerolled (it : Item) : Item :=
  if !(truthy (it.info.get ("space"))) then { it with was_rerolled := true } else it

/-- `Item.__eq__` on two Items: identity is by `item_id` alone. -/
def Item.py_eq (self other : Item) : Bool := self.item_id == other.item_id

/-- `Item.__ne__` on two Items. -/
def Item.py_ne (self other : Item) : Bool := self.item_id != other.item_id

/-- `Item.__hash__`: the hash of `item_id` alone. -/
def Item.py_hash (self : Item) : UInt64 := hash self.item_id

/-- Python `desc.endswith(", ")` test, on the character data. -/
def endsWithCommaSpace (desc : String) : Bool :=
  (", ").data.isSuffixOf desc.data

/-- `Item.generate_item_description`: read the stat fields off the item's
metadata, append each truthy one with its unit label and ", " in the fixed
source order, append the free text, strip one trailing ", ", and prefix a
non-empty result with ": ". The stat values that reach a `+=` are strings
in the metadata tables, which `strVal` extracts. -/
def generate_item_description (info : ItemInfo) : String :=
  let text := info.get ("text")
  let dmg := info.get ("dmg")
  let dmg_x := info.get ("dmg_x")
  let delay := info.get ("delay")
  let delay_x := info.get ("delay_x")
  let health := info.get ("health")
  let speed := info.get ("speed")
  let shot_speed := info.get ("shot_speed")
  let tear_range := info.get ("range")
  let height := info.get ("height")
  let tears := info.get ("tears")
  let soul_hearts := info.get ("soul_hearts")
  let sin_hearts := info.get ("sin_hearts")
  let desc := ("")
  let desc := if truthy dmg then desc ++ strVal dmg ++ " dmg, " else desc
  let desc := if truthy dmg_x then desc ++ "x" ++ strVal dmg_x ++ " dmg, " else desc
  let desc := if truthy tears then desc ++ strVal tears ++ " tears, " else desc
  let desc := if truthy delay then desc ++ strVal delay ++ " tear delay, " else desc
  let desc := if truthy delay_x then desc ++ "x" ++ strVal delay_x ++ " tear delay, " else desc
  let desc := if truthy shot_speed then desc ++ strVal shot_speed ++ " shotspeed, " else desc
  let desc := if truthy tear_range then desc ++ strVal tear_range ++ " range, " else desc
  let desc := if truthy height then desc ++ strVal height ++ " height, " else desc
  let desc := if truthy speed then desc ++ strVal speed ++ " speed, " else desc
  let desc := if truthy health then desc ++ strVal health ++ " health, " else desc
  let desc := if truthy soul_hearts then desc ++ strVal soul_hearts ++ " soul hearts, " else desc
  let desc := if truthy sin_hearts then desc ++ strVal sin_hearts ++ " sin hearts, " else desc
  let desc := if truthy text then desc ++ strVal text else desc
  let desc := if endsWithCommaSpace desc then desc.dropRight 2 else desc
  if desc.length > 0 then ": " ++ desc else desc

/-- Concatenation of a list of string fragments, in order. -/
def concatAll (l : List String) : String :=
  l.foldr (fun a b => a ++ b) ("")

/-- The fixed stat-field order of the specification, each with the prefix
put before its value ("x" for the multiplicative stats) and the unit-label
suffix put after it. -/
def statOrder : List (String × String × String) :=
  [("dmg", "", " dmg, "), ("dmg_x", "x", " dmg, "), ("tears", "", " tears, "),
   ("delay", "", " tear delay, "), ("delay_x", "x", " tear delay, "),
   ("shot_speed", "", " shotspeed, "), ("range", "", " range, "),
   ("height", "", " height, "), ("speed", "", " speed, "),
   ("health", "", " health, "), ("soul_hearts", "", " soul hearts, "),
   ("sin_hearts", "", " sin hearts, ")]

/-- The fragment one stat field contributes to the description: nothing if
the field is absent or empty, else prefix, value and unit-label suffix. -/
def specStatPart (info : ItemInfo) (f : String × String × String) : String :=
  if truthy (info.get f.1) then f.2.1 ++ strVal (info.get f.1) ++ f.2.2 else ("")

/-- The free-text fragment of the description. -/
def specTextPart (info : ItemInfo) : String :=
  if truthy (info.get ("text")) then strVal (info.get ("text")) else ("")

/-- Description generation as the specification words it: concatenate the
fragments of the present stat fields in the fixed order, then the free
text; strip a trailing ", "; prefix a non-empty result with ": ". -/
def description_spec (info : ItemInfo) : String :=
  let body := concatAll (statOrder.map (specStatPart info) ++ [specTextPart info])
  let body := if endsWithCommaSpace body then body.dropRight 2 else body
  if body.length > 0 then ": " ++ body else body

/-- The persisted record for one Item, as a type-checked JSON dict:
all three fields present and string-typed. -/
structure JsonDic where
  item_id : String
  floor_id : String
  flags : String
  deriving DecidableEq

/-- The message `log_error` formats for an unknown floor id. -/
def floorErrorMsg (floor_id : String) : String :=
  "ERROR: Floor id " ++ floor_id ++ " is not found in state list"

/-- `Item.from_valid_json`: find the record's floor among the known floors
(first match); if none, log the error and return None; otherwise replace an
item id unknown to the metadata tables by the sentinel id "NEW" and build
the Item with the record's flag string. The result pairs the produced item
(None on the logged floor failure) with the logged messages; exceptions
escaping `contains_info` or the constructor propagate as errors. -/
def from_valid_json (builtins custom : Table) (json_dic : JsonDic)
    (floor_list : List Floor) : Except PyErr (Option Item × List String) :=
  match floor_list.find? (fun f => f.floor_id == json_dic.floor_id) with
  | Option.none => Except.ok (Option.none, [floorErrorMsg json_dic.floor_id])
  | Option.some floor =>
    match contains_info builtins custom json_dic.item_id with
    | Except.error e => Except.error e
    | Except.ok present =>
      let item_id := if present then json_dic.item_id else ("NEW")
      match Item.init builtins custom item_id floor false false false
          (Option.some json_dic.flags) with
      | Except.error e => Except.error e
      | Except.ok it => Except.ok (Option.some it, [])

/-! Helper lemmas. -/

/-- The character data the flag encoder accumulates on top of `acc`. -/
theorem flagsFoldl_data (it : Item) (order : List (String × Char)) (acc : String) :
    (order.foldl (fun flagstr p => if getFlag it p.1 then flagstr.push p.2 else flagstr) acc).data
      = acc.data ++ order.filterMap
          (fun p => if getFlag it p.1 then Option.some p.2 else Option.none) := by
  induction order generalizing acc with
  | nil => simp
  | cons p t ih =>
    by_cases hp : getFlag it p.1
    · simp [hp, ih, String.data_push]
    · simp [hp, ih]

/-- The encoded flag string, as the list of characters of the true flags
in iteration order. -/
theorem flagsWith_data (order : List (String × Char)) (it : Item) :
    (flagsWith order it).data
      = order.filterMap (fun p => if getFlag it p.1 then Option.some p.2 else Option.none) := by
  simpa using flagsFoldl_data it order ("")

/-- Permuted character lists agree on membership tests. -/
theorem contains_of_perm {l₁ l₂ : List Char} (h : l₁.Perm l₂) (c : Char) :
    l₁.contains c = l₂.contains c := by
  rcases hc : l₂.contains c <;> simp_all [List.contains, h.mem_iff]

/-- With the source dict order, 'b' is emitted exactly for `blind`. -/
theorem flags_contains_b (x : Item) :
    (flagsWith serialization_flags x).data.contains 'b' = x.blind := by
  rcases x with ⟨id, fl, s, b, r, info⟩
  cases s <;> cases b <;> cases r <;> rfl

/-- With the source dict order, 'r' is emitted exactly for `was_rerolled`. -/
theorem flags_contains_r (x : Item) :
    (flagsWith serialization_flags x).data.contains 'r' = x.was_rerolled := by
  rcases x with ⟨id, fl, s, b, r, info⟩
  cases s <;> cases b <;> cases r <;> rfl

/-- With the source dict order, 's' is emitted exactly for `starting_item`. -/
theorem flags_contains_s (x : Item) :
    (flagsWith serialization_flags x).data.contains 's' = x.starting_item := by
  rcases x with ⟨id, fl, s, b, r, info⟩
  cases s <;> cases b <;> cases r <;> rfl

/-- Decoding sets `blind` to the occurrence test of 'b'. -/
theorem decode_blind (fs : String) (y : Item) :
    (decodeFlags serialization_flags fs y).blind = fs.data.contains 'b' := rfl

/-- Decoding sets `was_rerolled` to the occurrence test of 'r'. -/
theorem decode_was_rerolled (fs : String) (y : Item) :
    (decodeFlags serialization_flags fs y).was_rerolled = fs.data.contains 'r' := rfl

/-- Decoding sets `starting_item` to the occurrence test of 's'. -/
theorem decode_starting_item (fs : String) (y : Item) :
    (decodeFlags serialization_flags fs y).starting_item = fs.data.contains 's' := rfl

/-! Claim theorems. -/

/-- C1: for every emission order of the flag dict and every combination of
the three booleans, encoding an Item's flags and decoding the resulting
string through the flagstr branch reproduces exactly the three original
flag values in the decoded item. -/
theorem flags_roundtrip (order : List (String × Char))
    (horder : order.Perm serialization_flags) (x y : Item) :
    (decodeFlags serialization_flags (flagsWith order x) y).blind = x.blind
    ∧ (decodeFlags serialization_flags (flagsWith order x) y).was_rerolled = x.was_rerolled
    ∧ (decodeFlags serialization_flags (flagsWith order x) y).starting_item = x.starting_item := by
  have hperm : ((flagsWith order x).data).Perm ((flagsWith serialization_flags x).data) := by
    rw [flagsWith_data, flagsWith_data]
    exact horder.filterMap _
  refine ⟨?_, ?_, ?_⟩
  · rw [decode_blind, contains_of_perm hperm, flags_contains_b]
  · rw [decode_was_rerolled, contains_of_perm hperm, flags_contains_r]
  · rw [decode_starting_item, contains_of_perm hperm, flags_contains_s]

/-- C1 witness: a concrete reversed emission order and a concrete flag
combination round-trip onto a differently-flagged target. -/
theorem flags_roundtrip_witness :
    (decodeFlags serialization_flags
        (flagsWith [(("starting_item"), 's'), (("was_rerolled"), 'r'), (("blind"), 'b')]
          (Item.mk ("1") (Floor.mk ("F1")) false true false (ItemInfo.mk [])))
        (Item.mk ("2") (Floor.mk ("F2")) true false true (ItemInfo.mk []))).blind
      = (Item.mk ("1") (Floor.mk ("F1")) false true false (ItemInfo.mk [])).blind
    ∧ (decodeFlags serialization_flags
        (flagsWith [(("starting_item"), 's'), (("was_rerolled"), 'r'), (("blind"), 'b')]
          (Item.mk ("1") (Floor.mk ("F1")) false true false (ItemInfo.mk [])))
        (Item.mk ("2") (Floor.mk ("F2")) true false true (ItemInfo.mk []))).was_rerolled
      = (Item.mk ("1") (Floor.mk ("F1")) false true false (ItemInfo.mk [])).was_rerolled
    ∧ (decodeFlags serialization_flags
        (flagsWith [(("starting_item"), 's'), (("was_rerolled"), 'r'), (("blind"), 'b')]
          (Item.mk ("1") (Floor.mk ("F1")) false true false (ItemInfo.mk [])))
        (Item.mk ("2") (Floor.mk ("F2")) true false true (ItemInfo.mk []))).starting_item
      = (Item.mk ("1") (Floor.mk ("F1")) false true false (ItemInfo.mk [])).starting_item :=
  flags_roundtrip [(("starting_item"), 's'), (("was_rerolled"), 'r'), (("blind"), 'b')]
    (by decide)
    (Item.mk ("1") (Floor.mk ("F1")) false true false (ItemInfo.mk []))
    (Item.mk ("2") (Floor.mk ("F2")) true false true (ItemInfo.mk []))

/-- C9: when a flag string is supplied to construction, the explicit
boolean arguments are ignored — the whole construction result agrees for
any two choices of the boolean arguments. -/
theorem init_flagstr_ignores_bool_args (builtins custom : Table) (item_id : String)
    (floor : Floor) (s₁ r₁ b₁ s₂ r₂ b₂ : Bool) (fs : String) :
    Item.init builtins custom item_id floor s₁ r₁ b₁ (Option.some fs)
      = Item.init builtins custom item_id floor s₂ r₂ b₂ (Option.some fs) := by
  unfold Item.init
  cases get_item_info builtins custom item_id with
  | error e => rfl
  | ok info => rfl

/-- C7: rerolling a space-exempt item is a no-op; rerolling any other item
sets exactly `was_rerolled` to true. -/
theorem rerolled_spec (it : Item) :
    (truthy (it.info.get ("space")) = true → it.rerolled = it)
    ∧ (truthy (it.info.get ("space")) = false →
        it.rerolled = { it with was_rerolled := true }) := by
  constructor
  · intro h
    unfold Item.rerolled
    rw [h]
    rfl
  · intro h
    unfold Item.rerolled
    rw [h]
    rfl

/-- C7 witness: a concrete space-exempt item is unchanged, a concrete
plain item gets `was_rerolled := true`. -/
theorem rerolled_witness :
    (Item.mk ("1") (Floor.mk ("F1")) false false false
        (ItemInfo.mk [(("space"), Value.bool true)])).rerolled
      = Item.mk ("1") (Floor.mk ("F1")) false false false
          (ItemInfo.mk [(("space"), Value.bool true)])
    ∧ (Item.mk ("2") (Floor.mk ("F1")) false false false (ItemInfo.mk [])).rerolled
      = { Item.mk ("2") (Floor.mk ("F1")) false false false (ItemInfo.mk []) with
          was_rerolled := true } :=
  ⟨(rerolled_spec (Item.mk ("1") (Floor.mk ("F1")) false false false
      (ItemInfo.mk [(("space"), Value.bool true)]))).1 rfl,
   (rerolled_spec (Item.mk ("2") (Floor.mk ("F1")) false false false (ItemInfo.mk []))).2 rfl⟩

/-- C8: Item equality is exactly item_id equality, hash is computed from
item_id alone (so equal items hash identically), and `__ne__` is the
negation of `__eq__` on Items. -/
theorem item_identity (a b : Item) :
    (Item.py_eq a b = true ↔ a.item_id = b.item_id)
    ∧ (Item.py_eq a b = true → Item.py_hash a = Item.py_hash b)
    ∧ Item.py_ne a b = !(Item.py_eq a b) := by
  refine ⟨?_, ?_, ?_⟩
  · simp [Item.py_eq]
  · intro h
    have h2 : a.item_id = b.item_id := by simpa [Item.py_eq] using h
    simp [Item.py_hash, h2]
  · rfl

/-- C8 witness: two concrete items with the same id but different floor
and flags hash identically. -/
theorem item_identity_witness :
    Item.py_hash (Item.mk ("1") (Floor.mk ("F1")) false false false (ItemInfo.mk []))
      = Item.py_hash (Item.mk ("1") (Floor.mk ("F2")) true true true (ItemInfo.mk [])) :=
  (item_identity (Item.mk ("1") (Floor.mk ("F1")) false false false (ItemInfo.mk []))
    (Item.mk ("1") (Floor.mk ("F2")) true true true (ItemInfo.mk []))).2.1 rfl

/-- C10: both metadata operations inspect the first character of the id,
so on the empty identifier both raise IndexError — neither returns false
nor raises the unknown-item KeyError. -/
theorem empty_id_raises (builtins custom : Table) :
    get_item_info builtins custom ("") = Except.error PyErr.indexError
    ∧ contains_info builtins custom ("") = Except.error PyErr.indexError :=
  ⟨rfl, rfl⟩

/-- Consulting one fixed metadata table for a key: the wrapped record if
present, KeyError otherwise. Used to state to which table and key the
prefix routing of `get_item_info` resolves. -/
def lookupResult (t : Table) (key : String) : Except PyErr ItemInfo :=
  match tableGet t key with
  | Option.some raw => Except.ok (ItemInfo.mk raw)
  | Option.none => Except.error PyErr.keyError

/-- C5: an identifier beginning with the modded prefix 'm' is looked up —
for both `get_item_info` and `contains_info` — in the custom table keyed
by the identifier without its first character; every other (non-empty)
identifier is looked up in the builtins table keyed by the identifier
itself. -/
theorem lookup_routing (builtins custom : Table) :
    (∀ X : String,
        get_item_info builtins custom (("m") ++ X) = lookupResult custom X
          ∧ contains_info builtins custom (("m") ++ X)
              = Except.ok (tableContains custom X))
    ∧ (∀ (c0 : Char) (cs : List Char), c0 ≠ 'm' →
        get_item_info builtins custom (String.mk (c0 :: cs))
            = lookupResult builtins (String.mk (c0 :: cs))
          ∧ contains_info builtins custom (String.mk (c0 :: cs))
              = Except.ok (tableContains builtins (String.mk (c0 :: cs)))) := by
  constructor
  · intro X
    obtain ⟨l⟩ := X
    exact ⟨rfl, rfl⟩
  · intro c0 cs h
    constructor
    · show (if c0 = 'm' then lookupResult custom (String.mk cs)
          else lookupResult builtins (String.mk (c0 :: cs)))
          = lookupResult builtins (String.mk (c0 :: cs))
      rw [if_neg h]
    · show (if c0 = 'm' then Except.ok (tableContains custom (String.mk cs))
          else Except.ok (tableContains builtins (String.mk (c0 :: cs))))
          = Except.ok (tableContains builtins (String.mk (c0 :: cs)))
      rw [if_neg h]

/-- C5 witness: "mBetrayal" resolves in the custom table under "Betrayal";
"123" resolves in the builtins table under "123". -/
theorem lookup_routing_witness :
    get_item_info [] [(("Betrayal"), [])] (("m") ++ ("Betrayal"))
        = Except.ok (ItemInfo.mk [])
    ∧ contains_info [(("123"), [])] [] (String.mk ('1' :: ("23").data))
        = Except.ok true := by
  constructor
  · exact ((lookup_routing [] [(("Betrayal"), [])]).1 ("Betrayal")).1
  · exact ((lookup_routing [(("123"), [])] []).2 '1' (("23").data) (by decide)).2

/-- In an association list with pairwise-distinct keys, `find?` on a key
retrieves exactly the stored pair. -/
theorem find_assoc_of_nodup (raw : RawMetadata) (name : String) (v : Value)
    (hnd : (raw.map Prod.fst).Nodup) (hmem : (name, v) ∈ raw) :
    raw.find? (fun p => p.1 == name) = Option.some (name, v) := by
  induction raw with
  | nil => cases hmem
  | cons q t ih =>
    simp only [List.map_cons, List.nodup_cons] at hnd
    rcases List.mem_cons.mp hmem with hq | hmem2
    · rw [← hq]
      apply List.find?_cons_of_pos
      simp
    · by_cases hq1 : q.1 = name
      · exfalso
        have hnm : name ∈ t.map Prod.fst := List.mem_map_of_mem Prod.fst hmem2
        exact hnd.1 (hq1 ▸ hnm)
      · rw [List.find?_cons_of_neg]
        · exact ih hnd.2 hmem2
        · simp [hq1]

/-- C6: attribute access on an ItemInfo is total — a name absent from the
backing record (any string, including the empty one) yields the absent
sentinel None, while a name stored in the record yields its stored
value. -/
theorem iteminfo_get_total (raw : RawMetadata) (name : String) :
    ((∀ v : Value, (name, v) ∉ raw) → (ItemInfo.mk raw).get name = Option.none)
    ∧ (∀ v : Value, (raw.map Prod.fst).Nodup → (name, v) ∈ raw →
        (ItemInfo.mk raw).get name = Option.some v) := by
  constructor
  · intro h
    unfold ItemInfo.get
    cases hf : (ItemInfo.mk raw).raw.find? (fun p => p.1 == name) with
    | none => rfl
    | some p =>
      exfalso
      have hp := List.find?_some hf
      simp only [beq_iff_eq] at hp
      have hmem : p ∈ raw := List.mem_of_find?_eq_some hf
      have hpn : p = (name, p.2) := by
        rcases p with ⟨k, w⟩
        simp_all
      exact h p.2 (hpn ▸ hmem)
  · intro v hnd hmem
    show (match raw.find? (fun p => p.1 == name) with
          | Option.some p => Option.some p.2
          | Option.none => Option.none) = Option.some v
    rw [find_assoc_of_nodup raw name v hnd hmem]

/-- C6 witness: on the record {"dmg": "+1"}, the unknown names "" and
"class" yield None and the stored name "dmg" yields its value. -/
theorem iteminfo_get_witness :
    (ItemInfo.mk [(("dmg"), Value.str ("+1"))]).get ("") = Option.none
    ∧ (ItemInfo.mk [(("dmg"), Value.str ("+1"))]).get ("class") = Option.none
    ∧ (ItemInfo.mk [(("dmg"), Value.str ("+1"))]).get ("dmg")
        = Option.some (Value.str ("+1")) :=
  ⟨(iteminfo_get_total [(("dmg"), Value.str ("+1"))] ("")).1 (by
      intro v hv
      simp at hv),
   (iteminfo_get_total [(("dmg"), Value.str ("+1"))] ("class")).1 (by
      intro v hv
      simp at hv),
   (iteminfo_get_total [(("dmg"), Value.str ("+1"))] ("dmg")).2 (Value.str ("+1"))
     (by decide) (by decide)⟩

/-- Accumulating optional fragments one `+=` at a time equals appending
the concatenation of the retained fragments. -/
theorem chain_eq_concat (L : List (Bool × String)) (acc : String) :
    L.foldl (fun d p => if p.1 then d ++ p.2 else d) acc
      = acc ++ concatAll (L.map (fun p => if p.1 then p.2 else (""))) := by
  induction L generalizing acc with
  | nil => simp [concatAll]
  | cons p t ih =>
    rcases p with ⟨b, s⟩
    cases b
    · simpa [concatAll, String.empty_append] using ih acc
    · simp only [List.foldl_cons, List.map_cons, if_true, concatAll, List.foldr_cons]
      rw [ih (acc ++ s), String.append_assoc]
      rfl

/-- The stat-accumulation loop of `generate_item_description`, written as
one fold over the thirteen (condition, fragment) pairs in source order. -/
def descFold (info : ItemInfo) : String :=
  List.foldl (fun d p => if p.1 then d ++ p.2 else d) ("")
    [(truthy (info.get ("dmg")), strVal (info.get ("dmg")) ++ " dmg, "),
     (truthy (info.get ("dmg_x")), "x" ++ strVal (info.get ("dmg_x")) ++ " dmg, "),
     (truthy (info.get ("tears")), strVal (info.get ("tears")) ++ " tears, "),
     (truthy (info.get ("delay")), strVal (info.get ("delay")) ++ " tear delay, "),
     (truthy (info.get ("delay_x")), "x" ++ strVal (info.get ("delay_x")) ++ " tear delay, "),
     (truthy (info.get ("shot_speed")), strVal (info.get ("shot_speed")) ++ " shotspeed, "),
     (truthy (info.get ("range")), strVal (info.get ("range")) ++ " range, "),
     (truthy (info.get ("height")), strVal (info.get ("height")) ++ " height, "),
     (truthy (info.get ("speed")), strVal (info.get ("speed")) ++ " speed, "),
     (truthy (info.get ("health")), strVal (info.get ("health")) ++ " health, "),
     (truthy (info.get ("soul_hearts")), strVal (info.get ("soul_hearts")) ++ " soul hearts, "),
     (truthy (info.get ("sin_hearts")), strVal (info.get ("sin_hearts")) ++ " sin hearts, "),
     (truthy (info.get ("text")), strVal (info.get ("text")))]

/-- The unrolled accumulation of the source is the fold over its
thirteen (condition, fragment) pairs. -/
theorem gen_eq_fold (info : ItemInfo) :
    generate_item_description info
      = (let d := descFold info
         let d := if endsWithCommaSpace d then d.dropRight 2 else d
         if d.length > 0 then ": " ++ d else d) := by
  simp only [generate_item_description, descFold, List.foldl_cons, List.foldl_nil,
    String.append_assoc]

/-- The fold produces exactly the concatenation of the per-field
fragments of the specification, in the fixed order, text last. -/
theorem fold_eq_parts (info : ItemInfo) :
    descFold info = concatAll (statOrder.map (specStatPart info) ++ [specTextPart info]) := by
  rw [descFold, chain_eq_concat]
  simp [concatAll, statOrder, specStatPart, specTextPart, String.empty_append]

/-- C2: `generate_item_description` concatenates exactly the present stat
fields, in the fixed order with the "x" prefixes and unit labels, then the
free text, stripping a trailing ", " and prefixing a non-empty result with
": "; an item contributing no content yields "", and the record with
dmg "+1", tears "+0.2", text "Extra info" yields exactly
": +1 dmg, +0.2 tears, Extra info". -/
theorem description_correct :
    (∀ info : ItemInfo, generate_item_description info = description_spec info)
    ∧ generate_item_description (ItemInfo.mk
        [(("dmg"), Value.str ("+1")), (("tears"), Value.str ("+0.2")),
         (("text"), Value.str ("Extra info"))])
        = (": +1 dmg, +0.2 tears, Extra info")
    ∧ generate_item_description (ItemInfo.mk []) = ("") := by
  refine ⟨?_, rfl, rfl⟩
  intro info
  simp only [gen_eq_fold, fold_eq_parts, description_spec]

/-- C4: when no floor in the supplied list carries the record's floor id,
reconstruction logs the floor-integrity error and returns no Item, without
raising. -/
theorem from_valid_json_unknown_floor (builtins custom : Table) (dic : JsonDic)
    (floor_list : List Floor)
    (h : ∀ f ∈ floor_list, f.floor_id ≠ dic.floor_id) :
    from_valid_json builtins custom dic floor_list
      = Except.ok (Option.none, [floorErrorMsg dic.floor_id]) := by
  have hfind : floor_list.find? (fun f => f.floor_id == dic.floor_id) = Option.none := by
    rw [List.find?_eq_none]
    intro f hf
    simpa using h f hf
  simp only [from_valid_json, hfind]

/-- C4 witness: the record with floor id "MISSING" against the floor list
[Floor "F1"] yields the logged failure and no Item. -/
theorem from_valid_json_unknown_floor_witness :
    from_valid_json [] [] (JsonDic.mk ("999999") ("MISSING") ("rb")) [Floor.mk ("F1")]
      = Except.ok (Option.none, [floorErrorMsg ("MISSING")]) :=
  from_valid_json_unknown_floor [] [] (JsonDic.mk ("999999") ("MISSING") ("rb"))
    [Floor.mk ("F1")] (by decide)

/-- C3 counterexample: a record whose item id is the empty string — absent
from both tables — with a matching floor raises IndexError inside
`contains_info`, so reconstruction does not succeed for it. -/
theorem from_valid_json_empty_id_raises :
    from_valid_json [(("NEW"), [(("name"), Value.str ("?"))])] []
        (JsonDic.mk ("") ("F1") ("rb")) [Floor.mk ("F1")]
      = Except.error PyErr.indexError := rfl

/-- C3 (amended with non-empty item id; the sentinel record for "NEW" in
the builtins table is the standing data assumption of the spec): a record
whose non-empty item id is absent from both tables and whose floor id is
found reconstructs successfully into an Item carrying the metadata of
"NEW" and the flags decoded from the record's flag string. -/
theorem from_valid_json_unknown_id (builtins custom : Table) (dic : JsonDic)
    (floor_list : List Floor) (floor : Floor) (newRaw : RawMetadata)
    (hfloor : floor_list.find? (fun f => f.floor_id == dic.floor_id) = Option.some floor)
    (hne : dic.item_id ≠ (""))
    (hb : tableGet builtins dic.item_id = Option.none)
    (hc : tableGet custom (String.mk dic.item_id.data.tail) = Option.none)
    (hnew : tableGet builtins ("NEW") = Option.some newRaw) :
    from_valid_json builtins custom dic floor_list
      = Except.ok (Option.some
          { item_id := ("NEW"), floor := floor,
            starting_item := dic.flags.data.contains 's',
            blind := dic.flags.data.contains 'b',
            was_rerolled := dic.flags.data.contains 'r',
            info := ItemInfo.mk newRaw }, []) := by
  rcases dic with ⟨item_id, floor_id, flags⟩
  obtain ⟨idl⟩ := item_id
  cases idl with
  | nil => exact absurd rfl hne
  | cons c0 rest =>
    have hcont : contains_info builtins custom (String.mk (c0 :: rest)) = Except.ok false := by
      show (if c0 = 'm' then Except.ok (tableContains custom (String.mk rest))
          else Except.ok (tableContains builtins (String.mk (c0 :: rest))))
          = Except.ok false
      by_cases hc0 : c0 = 'm'
      · rw [if_pos hc0]
        simp only [tableContains]
        rw [show tableGet custom (String.mk rest) = Option.none from hc]
        rfl
      · rw [if_neg hc0]
        simp only [tableContains]
        rw [show tableGet builtins (String.mk (c0 :: rest)) = Option.none from hb]
        rfl
    have hgi : get_item_info builtins custom ("NEW") = Except.ok (ItemInfo.mk newRaw) := by
      show lookupResult builtins ("NEW") = Except.ok (ItemInfo.mk newRaw)
      unfold lookupResult
      rw [hnew]
    have hinit : Item.init builtins custom ("NEW") floor false false false
        (Option.some flags)
        = Except.ok
            { item_id := ("NEW"), floor := floor,
              starting_item := flags.data.contains 's',
              blind := flags.data.contains 'b',
              was_rerolled := flags.data.contains 'r',
              info := ItemInfo.mk newRaw } := by
      unfold Item.init
      rw [hgi]
      rfl
    simp only [from_valid_json, hfloor, hcont]
    simp [hinit]

/-- C3 witness: the spec scenario — known floors [Floor "F1"], record
{item_id "999999" (absent from both tables), floor_id "F1", flags "rb"},
builtins carrying the "NEW" sentinel — reconstructs into an Item with the
"NEW" metadata, blind and was_rerolled true, starting_item false. -/
theorem from_valid_json_unknown_id_witness :
    from_valid_json [(("NEW"), [(("name"), Value.str ("?"))])] []
        (JsonDic.mk ("999999") ("F1") ("rb")) [Floor.mk ("F1")]
      = Except.ok (Option.some
          { item_id := ("NEW"), floor := Floor.mk ("F1"), starting_item := false,
            blind := true, was_rerolled := true,
            info := ItemInfo.mk [(("name"), Value.str ("?"))] }, []) :=
  from_valid_json_unknown_id [(("NEW"), [(("name"), Value.str ("?"))])] []
    (JsonDic.mk ("999999") ("F1") ("rb")) [Floor.mk ("F1")] (Floor.mk ("F1"))
    [(("name"), Value.str ("?"))] rfl (by decide) rfl rfl rfl

end ItemTracker
